import Mathlib

/-!
Verification of the session-state store in src/lib/server/state.c.

The development gives a shallow embedding of the state tree and its
operations.  Machine bytes are modelled as natural numbers with explicit
reductions modulo 256 where the C code stores into a uint8, the 16-byte
state value is a list of naturals, and the rbtree plus expiry dlist are
modelled by a single list of entries kept in queue (insertion) order:
in the C code every live entry is in both structures, insertion appends
to the dlist tail and inserts into the tree, and unlink removes from both,
so one list with by-key search (rbtree) and positional access (dlist)
is a faithful joint model.  The external hashing and randomness
capabilities (fr_md5_calc, fr_hash_string, fr_rand) and the wall clock
are passed in as parameters, as are the bytes a given call obtains from
them.  Pointer identity of entries is modelled by the unique monotone
entry id the code itself assigns; talloc contexts are modelled by
numeric handles.
-/

namespace StateStore

/-- A protocol attribute pair (VALUE_PAIR): dictionary attribute number
and raw octet string value. -/
structure Pair where
  da : Nat
  value : List Nat
  deriving DecidableEq

/-- fr_state_entry_t: one conversation round of session state.
state is the 16-byte key, ctx/vps/data the owned payload
(ctx models the talloc state context pointer, none = NULL),
thawed the number of the request that checked the payload out. -/
structure Entry where
  id : Nat
  state : List Nat
  seq_start : Nat
  cleanup : Nat
  tries : Nat
  ctx : Option Nat
  vps : List Pair
  data : List Nat
  thawed : Option Nat
  deriving DecidableEq

/-- fr_state_tree_t: the store.  entries is the expiry queue in insertion
order; the rbtree holds exactly the same entries, so by-key operations
search this list. -/
structure StateTree where
  id : Nat
  timed_out : Nat
  max_sessions : Nat
  entries : List Entry
  timeout : Nat
  server_id : Nat
  da : Nat
  deriving DecidableEq

/-- The parts of a REQUEST this core touches: request/reply packet pair
lists, the session-state list and its talloc context, the persistable
request data, and the virtual server name. -/
structure Request where
  number : Nat
  seq_start : Nat
  packet_vps : List Pair
  reply_vps : List Pair
  state_ctx : Option Nat
  state : List Pair
  data : List Nat
  server : String
  deriving DecidableEq

/-- Capability interfaces supplied by collaborators: fr_md5_calc
(hash128), fr_hash_string (hash32) and the build version constant
HEXIFY(RADIUSD_VERSION). -/
structure Ext where
  hash128 : List Nat → List Nat
  hash32 : String → Nat
  version : Nat

/-- Outcome of state_entry_create.  The C function returns NULL from two
distinct failure sites: the max_sessions check and the rbtree insert
conflict. -/
inductive CreateRes where
  | ok (e : Entry)
  | capacityExceeded
  | insertConflict
  deriving DecidableEq

/-- Whether a CreateRes is a successful creation. -/
def CreateRes.isOk : CreateRes → Bool
  | .ok _ => true
  | _ => false

/-- Result bundle of state_entry_create: result, updated store, updated
outbound packet pair list. -/
structure CreateOut where
  result : CreateRes
  store : StateTree
  packet : List Pair
  deriving DecidableEq

/-- fr_state_tree_init: talloc_zero gives id = 0, timed_out = 0 and an
empty tree/queue; the configuration fields are copied in. -/
def initTree (max_sessions timeout server_id da : Nat) : StateTree :=
  { id := 0, timed_out := 0, max_sessions := max_sessions, entries := [],
    timeout := timeout, server_id := server_id, da := da }

/-- The fixed key width: sizeof(struct state_comp) = 16 bytes. -/
def keyWidth : Nat := 16

/-- The three-case key derivation of state_entry_create lines 414-441
(write path, caller pre-set State attribute): verbatim copy at exact
width, hash128 of the whole value when longer, zero padding when
shorter. -/
def writeKey (hash128 : List Nat → List Nat) (v : List Nat) : List Nat :=
  if v.length = keyWidth then v
  else if keyWidth < v.length then hash128 v
  else v ++ List.replicate (keyWidth - v.length) 0

/-- The three-case key derivation of state_entry_find lines 514-538
(read path, resolving a caller-supplied token). -/
def readKey (hash128 : List Nat → List Nat) (v : List Nat) : List Nat :=
  if v.length = keyWidth then v
  else if keyWidth < v.length then hash128 v
  else v ++ List.replicate (keyWidth - v.length) 0

/-- Key minting of state_entry_create lines 442-480 given the base bytes
(the predecessor key, or the fresh 16 random bytes) and the entry's
internal tries counter: set state_comp.tries (byte 0) to tries + 1
truncated to a byte, state_comp.tx (byte 1) to the xor of that byte with
the int counter truncated to a byte, the three version fingerprint bytes
vx_0/vx_1/vx_2 (bytes 8, 10, 12) to r_0 (byte 2) xored with the three
low bytes of the version number, and server_id (byte 3). -/
def mintKey (version server_id tries : Nat) (base : List Nat) : List Nat :=
  let k0 := base.set 0 ((tries + 1) % 256)
  let k1 := k0.set 1 ((((tries + 1) % 256) ^^^ tries) % 256)
  let r0 := k1.getD 2 0
  let k2 := k1.set 8 (r0 ^^^ (version / 2 ^ 16 % 256))
  let k3 := k2.set 10 (r0 ^^^ (version / 2 ^ 8 % 256))
  let k4 := k3.set 12 (r0 ^^^ (version % 256))
  k4.set 3 server_id

/-- In-place xor of the uint32 server_hash field (bytes 4..7 of the key)
with a hash32 value, byte order little-endian; both the mint path
(line 493) and the lookup path (line 543) use exactly this. -/
def xorServerHash (k : List Nat) (h : Nat) : List Nat :=
  let k4 := k.set 4 (k.getD 4 0 ^^^ (h % 256))
  let k5 := k4.set 5 (k4.getD 5 0 ^^^ (h / 2 ^ 8 % 256))
  let k6 := k5.set 6 (k5.getD 6 0 ^^^ (h / 2 ^ 16 % 256))
  k6.set 7 (k6.getD 7 0 ^^^ (h / 2 ^ 24 % 256))

/-- The lazy expiry sweep at the head of state_entry_create
(lines 308-330): walk the queue from the head, skip the entry being
rotated by identity, unlink every leading entry whose cleanup deadline
is strictly before now, and stop at the first other entry that has not
expired.  Returns (remaining queue, unlinked entries in walk order). -/
def sweep (now : Nat) (oldId : Option Nat) : List Entry → List Entry × List Entry
  | [] => ([], [])
  | e :: rest =>
    if oldId = some e.id then
      let r := sweep now oldId rest
      (e :: r.1, r.2)
    else if e.cleanup < now then
      let r := sweep now oldId rest
      (r.1, e :: r.2)
    else (e :: rest, [])

/-- rbtree insert plus queue append, state_entry_create lines 485-508:
xor the server hash into the key, fail with insertConflict when an
entry with a byte-identical key is already present (deleting the State
pairs from the outbound packet, freeing the entry), otherwise link the
entry at the queue tail. -/
def insertEntry (ext : Ext) (st : StateTree) (server : String)
    (packet : List Pair) (e : Entry) : CreateOut :=
  let e2 := { e with state := xorServerHash e.state (ext.hash32 server) }
  if st.entries.any (fun x => x.state == e2.state) then
    { result := .insertConflict, store := st,
      packet := packet.filter (fun p => ¬ p.da == st.da) }
  else
    { result := .ok e2,
      store := { st with entries := st.entries ++ [e2] },
      packet := packet }

/-- state_entry_create (lines 291-509).  rnd is the 16 bytes the four
fr_rand calls would produce, now the current time, packet the outbound
(reply) pair list, old the predecessor entry being rotated (if any).
Ordering of effects follows the C code: sweep and timed_out accounting,
capacity check, predecessor snapshot and unlink of a consumed
predecessor, capacity failure return (after the frees), allocation with
id increment, key derivation or minting, server-hash xor and insert. -/
def state_entry_create (ext : Ext) (rnd : List Nat) (now : Nat)
    (st : StateTree) (server : String) (packet : List Pair)
    (old : Option Entry) : CreateOut :=
  let sw := sweep now (old.map Entry.id) st.entries
  let st1 : StateTree :=
    { st with entries := sw.1, timed_out := st.timed_out + sw.2.length }
  let tooMany : Bool := old.isNone && decide (st.max_sessions ≤ st1.entries.length)
  let st2 : StateTree :=
    match old with
    | some o =>
      if o.data = [] then
        { st1 with entries := st1.entries.eraseP (fun e => e.id == o.id) }
      else st1
    | none => st1
  if tooMany then { result := .capacityExceeded, store := st2, packet := packet }
  else
    let newE : Entry :=
      { id := st2.id, state := List.replicate keyWidth 0, seq_start := 0,
        cleanup := now + st.timeout, tries := 0,
        ctx := none, vps := [], data := [], thawed := none }
    let st3 : StateTree := { st2 with id := st2.id + 1 }
    match packet.find? (fun p => p.da == st.da) with
    | some vp =>
      insertEntry ext st3 server packet { newE with state := writeKey ext.hash128 vp.value }
    | none =>
      match old with
      | some o =>
        let key := mintKey ext.version st.server_id (o.tries + 1) o.state
        insertEntry ext st3 server (packet ++ [{ da := st.da, value := key }])
          { newE with state := key, tries := o.tries + 1 }
      | none =>
        let key := mintKey ext.version st.server_id 0 rnd
        insertEntry ext st3 server (packet ++ [{ da := st.da, value := key }])
          { newE with state := key, tries := 0 }

/-- state_entry_find (lines 514-550): derive the fixed-width key from
the token bytes, xor in the hash of the current virtual server, and
search by byte-exact key match.  No mutation. -/
def state_entry_find (ext : Ext) (st : StateTree) (server : String)
    (vb : List Nat) : Option Entry :=
  let key := xorServerHash (readKey ext.hash128 vb) (ext.hash32 server)
  st.entries.find? (fun e => e.state == key)

/-- The predecessor computation of fr_request_to_state lines 687-690:
look up the entry matching the request's current State attribute. -/
def saveOld (ext : Ext) (st : StateTree) (r : Request) : Option Entry :=
  match r.packet_vps.find? (fun p => p.da == st.da) with
  | some vp => state_entry_find ext st r.server vp.value
  | none => none

/-- fr_state_to_request (lines 605-661): restore.  Without a State
attribute only seq_start initialisation happens.  If the matching entry
has already been thawed the restore is refused and nothing is mutated.
Otherwise payload ownership moves entry -> request (the entry's ctx,
vps and persistable data are cleared, request_data_restore appends the
entry's data to the request's), seq_start is copied, and thawed records
the restoring request. -/
def fr_state_to_request (ext : Ext) (st : StateTree) (r : Request) :
    StateTree × Request :=
  match r.packet_vps.find? (fun p => p.da == st.da) with
  | none =>
    (st, if r.seq_start = 0 then { r with seq_start := r.number } else r)
  | some vp =>
    match state_entry_find ext st r.server vp.value with
    | none => (st, r)
    | some e =>
      if e.thawed.isSome then (st, r)
      else
        ({ st with entries := st.entries.map (fun x =>
            if x.id == e.id then
              { x with ctx := none, vps := [], data := [], thawed := some r.number }
            else x) },
         { r with seq_start := e.seq_start, state_ctx := e.ctx,
                  state := e.vps, data := r.data ++ e.data })

/-- fr_request_to_state (lines 671-717): save.  The persistable request
data is detached first; with no session-state pairs and no data this is
a no-op returning 0.  Otherwise the predecessor (entry matching the
request packet's State attribute) is found and state_entry_create is
called with it; on failure the detached data is restored to the request
and -1 surfaced; on success the request's payload moves into the new
entry and the request's own slots are cleared. -/
def fr_request_to_state (ext : Ext) (rnd : List Nat) (now : Nat)
    (st : StateTree) (r : Request) : Int × StateTree × Request :=
  let data := r.data
  let r0 := { r with data := ([] : List Nat) }
  if r.state = [] ∧ data = [] then (0, st, r0)
  else
    let old := saveOld ext st r
    let out := state_entry_create ext rnd now st r.server r.reply_vps old
    match out.result with
    | .ok e =>
      let e2 := { e with seq_start := r.seq_start, ctx := r.state_ctx,
                         vps := r.state, data := data }
      (0,
       { out.store with entries := out.store.entries.map (fun x =>
           if x.id == e.id then e2 else x) },
       { r0 with state := [], state_ctx := none, reply_vps := out.packet })
    | _ =>
      (-1, out.store, { r0 with data := r0.data ++ data, reply_vps := out.packet })

/-- fr_state_discard (lines 555-596): find and unlink the entry for the
request's current State attribute; when one is found it is freed with
its payload and the request's own payload container is reset (empty
session-state list, fresh talloc context, modelled by the handle the
fresh talloc_init call yields).  When no State attribute is present or
no entry matches, the function returns early without touching the
request. -/
def fr_state_discard (ext : Ext) (freshCtx : Nat) (st : StateTree)
    (r : Request) : StateTree × Request :=
  match r.packet_vps.find? (fun p => p.da == st.da) with
  | none => (st, r)
  | some vp =>
    match state_entry_find ext st r.server vp.value with
    | none => (st, r)
    | some e =>
      ({ st with entries := st.entries.eraseP (fun x => x.id == e.id) },
       { r with state := [], state_ctx := some freshCtx })

/-- fr_state_entries_created (lines 824-827). -/
def fr_state_entries_created (st : StateTree) : Nat := st.id

/-- fr_state_entries_timeout (lines 832-835). -/
def fr_state_entries_timeout (st : StateTree) : Nat := st.timed_out

/-- fr_state_entries_tracked (lines 840-843): rbtree_num_elements. -/
def fr_state_entries_tracked (st : StateTree) : Nat := st.entries.length

/-- Well-formedness invariants the C store maintains: every stored key
is exactly 16 bytes, entry ids are below the allocator counter (hence
fresh ids are new), and keys and ids are pairwise distinct (rbtree
insert refuses key duplicates; ids come from a monotone counter). -/
def WF (st : StateTree) : Prop :=
  (∀ e ∈ st.entries, e.state.length = keyWidth) ∧
  (∀ e ∈ st.entries, e.id < st.id) ∧
  (st.entries.map Entry.state).Nodup ∧
  (st.entries.map Entry.id).Nodup

instance (st : StateTree) : Decidable (WF st) := by
  unfold WF; infer_instance

/-- Driver for the capacity scenario: perform one state_entry_create
call per element of rnds, with no predecessor and an empty outbound
packet, returning the final store and the number of calls that failed
with capacityExceeded. -/
def createRun (ext : Ext) (server : String) (now : Nat) :
    List (List Nat) → StateTree → StateTree × Nat
  | [], st => (st, 0)
  | rnd :: rest, st =>
    let out := state_entry_create ext rnd now st server [] none
    let r := createRun ext server now rest out.store
    (r.1, r.2 + (match out.result with | .capacityExceeded => 1 | _ => 0))

/-- The internal tries counter the minted entry gets: talloc_zero gives
0 for a fresh conversation, old->tries + 1 on rotation. -/
def mintTries : Option Entry → Nat
  | some o => o.tries + 1
  | none => 0

/-- The 16 bytes the minted key starts from: the predecessor's stored
key on rotation, the fresh random bytes otherwise. -/
def mintBase (rnd : List Nat) : Option Entry → List Nat
  | some o => o.state
  | none => rnd

/-- Concrete capability instantiation used by the witness scenarios. -/
def ext0 : Ext :=
  { hash128 := fun _ => List.replicate 16 0, hash32 := fun _ => 0, version := 0 }

/-- Concrete random bytes for witness scenarios. -/
def rnd0 : List Nat := List.replicate 16 0

/-- A second, distinct block of random bytes for witness scenarios. -/
def rnd1 : List Nat := List.replicate 16 1

/-- Witness request: holds one session-state pair and one persistable
datum, seq_start 4. -/
def wReq1 : Request :=
  { number := 1, seq_start := 4, packet_vps := [], reply_vps := [],
    state_ctx := some 3, state := [{ da := 2, value := [9] }], data := [7],
    server := "A" }

/-- Witness request for the second round: carries the token minted for
wReq1 and an otherwise empty payload. -/
def wReq2 : Request :=
  { number := 2, seq_start := 0,
    packet_vps := [{ da := 1, value := mintKey 0 0 0 rnd0 }], reply_vps := [],
    state_ctx := some 8, state := [], data := [], server := "A" }

/-- First request of the capacity counterexample: saves one persistable
datum into a store with max_sessions = 1. -/
def cReqA : Request :=
  { number := 1, seq_start := 0, packet_vps := [], reply_vps := [],
    state_ctx := some 3, state := [], data := [7], server := "A" }

/-- Second request of the capacity counterexample: echoes the first
token without having restored it, so the predecessor entry still
carries persistable data when the rotation happens. -/
def cReqB : Request :=
  { number := 2, seq_start := 0,
    packet_vps := [{ da := 1, value := mintKey 0 0 0 rnd0 }], reply_vps := [],
    state_ctx := some 4, state := [{ da := 2, value := [5] }], data := [],
    server := "A" }

/-- Witness entry that has already expired at time 1 (cleanup deadline
0): used to exercise the expiry sweep. -/
def entE : Entry :=
  { id := 0, state := mintKey 0 0 0 rnd0, seq_start := 0, cleanup := 0,
    tries := 0, ctx := some 1, vps := [], data := [], thawed := none }

/-- Witness store holding just entE. -/
def stE : StateTree :=
  { id := 1, timed_out := 0, max_sessions := 4, entries := [entE],
    timeout := 5, server_id := 0, da := 1 }

/-- Capability instantiation whose hash32 distinguishes virtual servers
A and B. -/
def extAB : Ext :=
  { hash128 := fun _ => List.replicate 16 0,
    hash32 := fun s => if s = "A" then 0 else 1, version := 0 }

/-- The entry produced by the witness create call under virtual server
A with extAB (hash32 value 0, so the stored key equals the minted
key). -/
def wEntC3 : Entry :=
  { id := 0, state := xorServerHash (mintKey 0 0 0 rnd0) 0, seq_start := 0,
    cleanup := 5, tries := 0, ctx := none, vps := [], data := [],
    thawed := none }

/-- Predecessor entry used by the rotation witness: carries the minted
first-round key and a consumed (empty) payload. -/
def entO : Entry :=
  { id := 0, state := mintKey 0 0 0 rnd0, seq_start := 0, cleanup := 5,
    tries := 0, ctx := some 1, vps := [], data := [], thawed := none }

/-- Store holding just entO, for the rotation witness. -/
def stO : StateTree :=
  { id := 1, timed_out := 0, max_sessions := 4, entries := [entO],
    timeout := 5, server_id := 0, da := 1 }

/-- The successor entry the rotation witness produces. -/
def wEntC7 : Entry :=
  { id := 1, state := xorServerHash (mintKey 0 0 1 (mintKey 0 0 0 rnd0)) 0,
    seq_start := 0, cleanup := 5, tries := 1, ctx := none, vps := [],
    data := [], thawed := none }

/-- Entry with an idle payload awaiting restore, for the double-restore
witness. -/
def entF : Entry :=
  { id := 0, state := mintKey 0 0 0 rnd0, seq_start := 4, cleanup := 5,
    tries := 0, ctx := some 3, vps := [{ da := 2, value := [9] }], data := [7],
    thawed := none }

/-- Store holding just entF. -/
def stF : StateTree :=
  { id := 1, timed_out := 0, max_sessions := 4, entries := [entF],
    timeout := 5, server_id := 0, da := 1 }

/-- A third request carrying the same echoed token as wReq2. -/
def wReq3 : Request :=
  { number := 3, seq_start := 0,
    packet_vps := [{ da := 1, value := mintKey 0 0 0 rnd0 }], reply_vps := [],
    state_ctx := some 9, state := [], data := [], server := "A" }

/-! Helper lemmas about bytes and keys. -/

theorem getD_set_self (l : List Nat) (i v : Nat) (h : i < l.length) :
    (l.set i v).getD i 0 = v := by
  simp [List.getD, List.getElem?_set, h]

theorem getD_set_other (l : List Nat) (i j v : Nat) (h : i ≠ j) :
    (l.set i v).getD j 0 = l.getD j 0 := by
  simp [List.getD, List.getElem?_set, h]

theorem length_mintKey (version sid tries : Nat) (base : List Nat) :
    (mintKey version sid tries base).length = base.length := by
  simp [mintKey]

theorem length_xorServerHash (k : List Nat) (h : Nat) :
    (xorServerHash k h).length = k.length := by
  simp [xorServerHash]

theorem readKey_eq_self (hash128 : List Nat → List Nat) (v : List Nat)
    (h : v.length = keyWidth) : readKey hash128 v = v := by
  simp [readKey, h]

theorem mintKey_getD (version sid tries : Nat) (base : List Nat)
    (hl : base.length = 16) :
    (mintKey version sid tries base).getD 0 0 = (tries + 1) % 256 ∧
    (mintKey version sid tries base).getD 1 0 = (((tries + 1) % 256) ^^^ tries) % 256 ∧
    (mintKey version sid tries base).getD 3 0 = sid ∧
    (mintKey version sid tries base).getD 8 0 = base.getD 2 0 ^^^ (version / 2 ^ 16 % 256) ∧
    (mintKey version sid tries base).getD 10 0 = base.getD 2 0 ^^^ (version / 2 ^ 8 % 256) ∧
    (mintKey version sid tries base).getD 12 0 = base.getD 2 0 ^^^ (version % 256) ∧
    ∀ j ∈ [2, 4, 5, 6, 7, 9, 11, 13, 14, 15],
      (mintKey version sid tries base).getD j 0 = base.getD j 0 := by
  unfold mintKey
  refine ⟨?_, ?_, ?_, ?_, ?_, ?_, ?_⟩
  · simp [getD_set_self, getD_set_other, hl]
  · simp [getD_set_self, getD_set_other, hl]
  · simp [getD_set_self, getD_set_other, hl]
  · simp [getD_set_self, getD_set_other, hl]
  · simp [getD_set_self, getD_set_other, hl]
  · simp [getD_set_self, getD_set_other, hl]
  · intro j hj
    fin_cases hj <;> simp [getD_set_self, getD_set_other, hl]

theorem xorServerHash_getD (k : List Nat) (h : Nat) (hl : k.length = 16) :
    (xorServerHash k h).getD 4 0 = k.getD 4 0 ^^^ (h % 256) ∧
    (xorServerHash k h).getD 5 0 = k.getD 5 0 ^^^ (h / 2 ^ 8 % 256) ∧
    (xorServerHash k h).getD 6 0 = k.getD 6 0 ^^^ (h / 2 ^ 16 % 256) ∧
    (xorServerHash k h).getD 7 0 = k.getD 7 0 ^^^ (h / 2 ^ 24 % 256) ∧
    ∀ j, j < 4 ∨ 8 ≤ j → (xorServerHash k h).getD j 0 = k.getD j 0 := by
  unfold xorServerHash
  refine ⟨?_, ?_, ?_, ?_, ?_⟩
  · simp [getD_set_self, getD_set_other, hl]
  · simp [getD_set_self, getD_set_other, hl]
  · simp [getD_set_self, getD_set_other, hl]
  · simp [getD_set_self, getD_set_other, hl]
  · intro j hj
    have n4 : (4 : Nat) ≠ j := by omega
    have n5 : (5 : Nat) ≠ j := by omega
    have n6 : (6 : Nat) ≠ j := by omega
    have n7 : (7 : Nat) ≠ j := by omega
    rw [getD_set_other _ _ _ _ n7, getD_set_other _ _ _ _ n6,
      getD_set_other _ _ _ _ n5, getD_set_other _ _ _ _ n4]

/-! Helper lemmas about the expiry sweep and list search. -/

theorem sweep_spec (now : Nat) (oldId : Option Nat) (l : List Entry) :
    ∃ p s, l = p ++ s ∧
      (∀ e ∈ p, oldId = some e.id ∨ e.cleanup < now) ∧
      (∀ e, s.head? = some e → ¬ oldId = some e.id ∧ now ≤ e.cleanup) ∧
      (sweep now oldId l).1 = p.filter (fun e => decide (oldId = some e.id)) ++ s ∧
      (sweep now oldId l).2 = p.filter (fun e => ! decide (oldId = some e.id)) := by
  induction l with
  | nil => exact ⟨[], [], by simp [sweep]⟩
  | cons e rest ih =>
    by_cases h1 : oldId = some e.id
    · subst h1
      obtain ⟨p, s, hps, hp, hs, hk, hf⟩ := ih
      refine ⟨e :: p, s, by simp [hps], ?_, hs, ?_, ?_⟩
      · intro x hx
        rcases List.mem_cons.mp hx with hx | hx
        · exact Or.inl (by rw [hx])
        · exact hp x hx
      · simp [sweep, hk]
      · simp [sweep, hf]
    · by_cases h2 : e.cleanup < now
      · obtain ⟨p, s, hps, hp, hs, hk, hf⟩ := ih
        refine ⟨e :: p, s, by simp [hps], ?_, hs, ?_, ?_⟩
        · intro x hx
          rcases List.mem_cons.mp hx with hx | hx
          · exact Or.inr (hx ▸ h2)
          · exact hp x hx
        · simp [sweep, h1, h2, hk]
        · simp [sweep, h1, h2, hf]
      · refine ⟨[], e :: rest, by simp, by simp, ?_, ?_, ?_⟩
        · intro x hx
          simp only [List.head?_cons, Option.some.injEq] at hx
          exact ⟨hx ▸ h1, hx ▸ Nat.le_of_not_lt h2⟩
        · simp [sweep, h1, h2]
        · simp [sweep, h1, h2]

theorem sweep_keep_subset (now : Nat) (oldId : Option Nat) (l : List Entry) :
    ∀ x ∈ (sweep now oldId l).1, x ∈ l := by
  induction l with
  | nil => simp [sweep]
  | cons e rest ih =>
    intro x hx
    by_cases h1 : oldId = some e.id
    · simp only [sweep, if_pos h1] at hx
      rcases List.mem_cons.mp hx with hx | hx
      · exact hx ▸ List.mem_cons_self e rest
      · exact List.mem_cons_of_mem e (ih x hx)
    · by_cases h2 : e.cleanup < now
      · simp only [sweep, if_neg h1, if_pos h2] at hx
        exact List.mem_cons_of_mem e (ih x hx)
      · simpa only [sweep, if_neg h1, if_neg h2] using hx

theorem sweep_keep_length_le (now : Nat) (oldId : Option Nat) (l : List Entry) :
    (sweep now oldId l).1.length ≤ l.length := by
  induction l with
  | nil => simp [sweep]
  | cons e rest ih =>
    by_cases h1 : oldId = some e.id
    · simp only [sweep, if_pos h1, List.length_cons]
      omega
    · by_cases h2 : e.cleanup < now
      · simp only [sweep, if_neg h1, if_pos h2, List.length_cons]
        omega
      · simp [sweep, if_neg h1, if_neg h2]

theorem sweep_no_expire (now : Nat) (oldId : Option Nat) (l : List Entry)
    (h : ∀ e ∈ l, now ≤ e.cleanup) : sweep now oldId l = (l, []) := by
  induction l with
  | nil => simp [sweep]
  | cons e rest ih =>
    have he : ¬ e.cleanup < now := Nat.not_lt.mpr (h e (List.mem_cons_self e rest))
    by_cases h1 : oldId = some e.id
    · subst h1
      have := ih fun x hx => h x (List.mem_cons_of_mem e hx)
      simp [sweep, this]
    · simp [sweep, h1, he]

theorem sweep_keep_id_mem (now : Nat) (oldId : Option Nat) (l : List Entry)
    (o : Entry) (ho : o ∈ l) (hid : oldId = some o.id) :
    ∃ x ∈ (sweep now oldId l).1, x.id = o.id := by
  induction l with
  | nil => cases ho
  | cons e rest ih =>
    by_cases h1 : oldId = some e.id
    · have heo : e.id = o.id := by
        rw [h1] at hid
        exact Option.some_inj.mp hid
      subst h1
      exact ⟨e, by simp [sweep], heo⟩
    · have ho' : o ∈ rest := by
        rcases List.mem_cons.mp ho with h | h
        · exact absurd (h ▸ hid) h1
        · exact h
      by_cases h2 : e.cleanup < now
      · obtain ⟨x, hx, hxi⟩ := ih ho'
        exact ⟨x, by simp only [sweep, if_neg h1, if_pos h2]; exact hx, hxi⟩
      · exact ⟨o, by simp only [sweep, if_neg h1, if_neg h2]; exact ho, rfl⟩

theorem find?_map_state_preserving (l : List Entry) (f : Entry → Entry)
    (key : List Nat) (hf : ∀ x, (f x).state = x.state) :
    (l.map f).find? (fun x => x.state == key) =
      (l.find? (fun x => x.state == key)).map f := by
  induction l with
  | nil => simp
  | cons a l ih =>
    by_cases h : a.state == key
    · simp [List.find?_cons, hf, h]
    · simp only [List.map_cons, List.find?_cons, hf, h]
      exact ih

theorem find_state_eraseP (l : List Entry) (key : List Nat) (e : Entry)
    (hn : (l.map Entry.state).Nodup) (hid : (l.map Entry.id).Nodup)
    (hf : l.find? (fun x => x.state == key) = some e) :
    (l.eraseP (fun x => x.id == e.id)).find? (fun x => x.state == key) = none := by
  induction l with
  | nil => simp at hf
  | cons a l ih =>
    by_cases h : a.state == key
    · have hae : a = e := by
        simpa [List.find?_cons, h] using hf
      have : (l.eraseP fun x => x.id == e.id) = l ∨ True := Or.inr trivial
      rw [List.eraseP_cons, hae]
      simp only [beq_self_eq_true, cond_true]
      apply List.find?_eq_none.mpr
      intro x hx
      have hkey : a.state = key := by simpa using h
      have : a.state ∉ l.map Entry.state := by
        simpa using (List.nodup_cons.mp hn).1
      simp only [beq_iff_eq]
      intro hxk
      exact this (hkey ▸ hxk ▸ List.mem_map_of_mem Entry.state hx)
    · have hf' : l.find? (fun x => x.state == key) = some e := by
        simpa [List.find?_cons, h] using hf
      have hel : e ∈ l := List.mem_of_find?_eq_some hf'
      have hane : ¬ a.id == e.id := by
        have : a.id ∉ l.map Entry.id := by
          simpa using (List.nodup_cons.mp hid).1
        simp only [beq_iff_eq]
        intro hae
        exact this (hae ▸ List.mem_map_of_mem Entry.id hel)
      rw [List.eraseP_cons]
      simp only [hane, cond_false, List.find?_cons, h]
      exact ih (List.nodup_cons.mp hn).2 (List.nodup_cons.mp hid).2 hf'

/-! Characterisation of state_entry_create. -/

theorem create_fields (ext : Ext) (rnd : List Nat) (now : Nat) (st : StateTree)
    (server : String) (packet : List Pair) (old : Option Entry) :
    (state_entry_create ext rnd now st server packet old).store.max_sessions = st.max_sessions ∧
    (state_entry_create ext rnd now st server packet old).store.timeout = st.timeout ∧
    (state_entry_create ext rnd now st server packet old).store.server_id = st.server_id ∧
    (state_entry_create ext rnd now st server packet old).store.da = st.da ∧
    (state_entry_create ext rnd now st server packet old).store.timed_out =
      st.timed_out + (sweep now (old.map Entry.id) st.entries).2.length := by
  simp only [state_entry_create, insertEntry]
  repeat' split
  all_goals simp_all

theorem create_mint_ok (ext : Ext) (rnd : List Nat) (now : Nat) (st : StateTree)
    (server : String) (packet : List Pair) (old : Option Entry) (e : Entry)
    (hpk : packet.find? (fun p => p.da == st.da) = none)
    (hok : (state_entry_create ext rnd now st server packet old).result = .ok e) :
    ∃ q, (state_entry_create ext rnd now st server packet old).store.entries = q ++ [e] ∧
      (state_entry_create ext rnd now st server packet old).store.id = st.id + 1 ∧
      (∀ x ∈ q, x ∈ st.entries) ∧
      (∀ x ∈ q, ¬ x.state = e.state) ∧
      (state_entry_create ext rnd now st server packet old).packet =
        packet ++
          [{ da := st.da,
             value := mintKey ext.version st.server_id (mintTries old) (mintBase rnd old) }] ∧
      e = { id := st.id,
            state := xorServerHash
              (mintKey ext.version st.server_id (mintTries old) (mintBase rnd old))
              (ext.hash32 server),
            seq_start := 0, cleanup := now + st.timeout, tries := mintTries old,
            ctx := none, vps := [], data := [], thawed := none } := by
  cases old with
  | none =>
    simp only [state_entry_create, insertEntry, hpk, mintTries, mintBase,
      Option.isNone_none, Option.map_none', Bool.true_and] at hok ⊢
    by_cases hcap : st.max_sessions ≤ (sweep now none st.entries).1.length
    · simp [hcap] at hok
    · have hcap2 : decide (st.max_sessions ≤ (sweep now none st.entries).1.length) = false :=
        decide_eq_false hcap
      simp only [hcap2, Bool.false_eq_true, if_false] at hok ⊢
      by_cases hconf : (sweep now none st.entries).1.any
          (fun x => x.state == xorServerHash (mintKey ext.version st.server_id 0 rnd) (ext.hash32 server)) = true
      · simp [hconf] at hok
      · rw [Bool.not_eq_true] at hconf
        simp only [hconf, Bool.false_eq_true, if_false] at hok ⊢
        simp only [CreateRes.ok.injEq] at hok
        refine ⟨(sweep now none st.entries).1, by simp [← hok], by simp, ?_, ?_, by simp, by rw [← hok]⟩
        · exact sweep_keep_subset now none st.entries
        · intro x hx
          have hall := List.any_eq_false.mp hconf
          have hx2 := hall x hx
          rw [← hok]
          simpa using hx2
  | some o =>
    simp only [state_entry_create, insertEntry, hpk, mintTries, mintBase,
      Option.isNone_some, Option.map_some', Bool.false_and, Bool.false_eq_true,
      if_false] at hok ⊢
    by_cases hdata : o.data = []
    · simp only [hdata, eq_self_iff_true, if_true] at hok ⊢
      by_cases hconf : ((sweep now (some o.id) st.entries).1.eraseP (fun e => e.id == o.id)).any
          (fun x => x.state == xorServerHash (mintKey ext.version st.server_id (o.tries + 1) o.state)
            (ext.hash32 server)) = true
      · simp [hconf] at hok
      · rw [Bool.not_eq_true] at hconf
        simp only [hconf, Bool.false_eq_true, if_false] at hok ⊢
        simp only [CreateRes.ok.injEq] at hok
        refine ⟨(sweep now (some o.id) st.entries).1.eraseP (fun e => e.id == o.id),
          by simp [← hok], by simp, ?_, ?_, by simp, by rw [← hok]⟩
        · intro x hx
          exact sweep_keep_subset now (some o.id) st.entries x ((List.eraseP_sublist _).subset hx)
        · intro x hx
          have hall := List.any_eq_false.mp hconf
          have hx2 := hall x hx
          rw [← hok]
          simpa using hx2
    · simp only [hdata, if_false] at hok ⊢
      by_cases hconf : (sweep now (some o.id) st.entries).1.any
          (fun x => x.state == xorServerHash (mintKey ext.version st.server_id (o.tries + 1) o.state)
            (ext.hash32 server)) = true
      · simp [hconf] at hok
      · rw [Bool.not_eq_true] at hconf
        simp only [hconf, Bool.false_eq_true, if_false] at hok ⊢
        simp only [CreateRes.ok.injEq] at hok
        refine ⟨(sweep now (some o.id) st.entries).1,
          by simp [← hok], by simp, ?_, ?_, by simp, by rw [← hok]⟩
        · exact sweep_keep_subset now (some o.id) st.entries
        · intro x hx
          have hall := List.any_eq_false.mp hconf
          have hx2 := hall x hx
          rw [← hok]
          simpa using hx2

theorem create_id_cases (ext : Ext) (rnd : List Nat) (now : Nat) (st : StateTree)
    (server : String) (packet : List Pair) (old : Option Entry) :
    ((state_entry_create ext rnd now st server packet old).result = .capacityExceeded →
      (state_entry_create ext rnd now st server packet old).store.id = st.id) ∧
    ((state_entry_create ext rnd now st server packet old).result ≠ .capacityExceeded →
      (state_entry_create ext rnd now st server packet old).store.id = st.id + 1) := by
  simp only [state_entry_create, insertEntry]
  repeat' split
  all_goals simp_all

theorem create_capacity_iff (ext : Ext) (rnd : List Nat) (now : Nat) (st : StateTree)
    (server : String) (packet : List Pair) :
    ((state_entry_create ext rnd now st server packet none).result = .capacityExceeded ↔
      st.max_sessions ≤ (sweep now none st.entries).1.length) ∧
    (st.max_sessions ≤ (sweep now none st.entries).1.length →
      (state_entry_create ext rnd now st server packet none).store.entries =
        (sweep now none st.entries).1) := by
  simp only [state_entry_create, insertEntry]
  repeat' split
  all_goals simp_all

theorem create_tracked_le (ext : Ext) (rnd : List Nat) (now : Nat) (st : StateTree)
    (server : String) (packet : List Pair)
    (hle : st.entries.length ≤ st.max_sessions) :
    (state_entry_create ext rnd now st server packet none).store.entries.length ≤
      st.max_sessions := by
  have hsw := sweep_keep_length_le now none st.entries
  simp only [state_entry_create, insertEntry]
  repeat' split
  all_goals (simp_all; omega)

theorem create_tracked_le_rot (ext : Ext) (rnd : List Nat) (now : Nat) (st : StateTree)
    (server : String) (packet : List Pair) (o : Entry)
    (ho : o ∈ st.entries) (hdata : o.data = [])
    (hle : st.entries.length ≤ st.max_sessions) :
    (state_entry_create ext rnd now st server packet (some o)).store.entries.length ≤
      st.max_sessions := by
  have hsw := sweep_keep_length_le now (some o.id) st.entries
  obtain ⟨x, hx, hxid⟩ := sweep_keep_id_mem now (some o.id) st.entries o ho rfl
  have hpos : 0 < (sweep now (some o.id) st.entries).1.length :=
    List.length_pos.mpr (List.ne_nil_of_mem hx)
  have herase : ((sweep now (some o.id) st.entries).1.eraseP (fun e => e.id == o.id)).length =
      (sweep now (some o.id) st.entries).1.length - 1 :=
    List.length_eraseP_of_mem hx (by simp [hxid])
  simp only [state_entry_create, insertEntry]
  repeat' split
  all_goals first
    | (simp_all; omega)
    | simp_all

theorem xor_left_cancel (a b c : Nat) (h : a ^^^ b = a ^^^ c) : b = c := by
  have := congrArg (fun x => a ^^^ x) h
  simpa [← Nat.xor_assoc] using this

theorem xorServerHash_ne (k : List Nat) (ha hb : Nat) (hl : k.length = 16)
    (hba : ha < 2 ^ 32) (hbb : hb < 2 ^ 32) (hne : ha ≠ hb) :
    xorServerHash k ha ≠ xorServerHash k hb := by
  intro heq
  obtain ⟨a4, a5, a6, a7, -⟩ := xorServerHash_getD k ha hl
  obtain ⟨b4, b5, b6, b7, -⟩ := xorServerHash_getD k hb hl
  have e4 : k.getD 4 0 ^^^ ha % 256 = k.getD 4 0 ^^^ hb % 256 := by
    rw [← a4, ← b4, heq]
  have e5 : k.getD 5 0 ^^^ ha / 2 ^ 8 % 256 = k.getD 5 0 ^^^ hb / 2 ^ 8 % 256 := by
    rw [← a5, ← b5, heq]
  have e6 : k.getD 6 0 ^^^ ha / 2 ^ 16 % 256 = k.getD 6 0 ^^^ hb / 2 ^ 16 % 256 := by
    rw [← a6, ← b6, heq]
  have e7 : k.getD 7 0 ^^^ ha / 2 ^ 24 % 256 = k.getD 7 0 ^^^ hb / 2 ^ 24 % 256 := by
    rw [← a7, ← b7, heq]
  have h4 := xor_left_cancel _ _ _ e4
  have h5 := xor_left_cancel _ _ _ e5
  have h6 := xor_left_cancel _ _ _ e6
  have h7 := xor_left_cancel _ _ _ e7
  omega

theorem save_ok (ext : Ext) (rnd : List Nat) (now : Nat) (st : StateTree)
    (r : Request) (e : Entry)
    (hne : ¬(r.state = [] ∧ r.data = []))
    (hok : (state_entry_create ext rnd now st r.server r.reply_vps (saveOld ext st r)).result = .ok e) :
    fr_request_to_state ext rnd now st r =
      (0,
       { (state_entry_create ext rnd now st r.server r.reply_vps (saveOld ext st r)).store with
         entries := (state_entry_create ext rnd now st r.server r.reply_vps
           (saveOld ext st r)).store.entries.map (fun x =>
             if x.id == e.id then
               { e with
                   seq_start := r.seq_start, ctx := r.state_ctx,
                   vps := r.state, data := r.data }
             else x) },
       { r with
           data := [], state := [], state_ctx := none,
           reply_vps := (state_entry_create ext rnd now st r.server r.reply_vps
             (saveOld ext st r)).packet }) := by
  simp only [fr_request_to_state]
  rw [if_neg hne]
  simp only [hok]

theorem save_fail (ext : Ext) (rnd : List Nat) (now : Nat) (st : StateTree)
    (r : Request)
    (hne : ¬(r.state = [] ∧ r.data = []))
    (hfail : ∀ e, (state_entry_create ext rnd now st r.server r.reply_vps (saveOld ext st r)).result ≠ .ok e) :
    fr_request_to_state ext rnd now st r =
      (-1,
       (state_entry_create ext rnd now st r.server r.reply_vps (saveOld ext st r)).store,
       { r with
           reply_vps := (state_entry_create ext rnd now st r.server r.reply_vps
             (saveOld ext st r)).packet }) := by
  simp only [fr_request_to_state]
  rw [if_neg hne]
  cases hres : (state_entry_create ext rnd now st r.server r.reply_vps (saveOld ext st r)).result with
  | ok e => exact absurd hres (hfail e)
  | capacityExceeded => rfl
  | insertConflict => rfl

/-! Claim theorems. -/

/-- C2: Key derivation symmetry.  For every byte string B the key
computed on the write path (state_entry_create with a pre-set State
attribute of value B) equals the key computed on the read path
(state_entry_find given B), and both follow the three-case rule:
verbatim copy at the key width, hash128 of the whole of B when longer,
copy with zero padding when shorter.  Instantiated in particular at
lengths width - 1, width, width + 1 and 0 by the witness. -/
theorem claim2_key_derivation_symmetry (hash128 : List Nat → List Nat) (v : List Nat) :
    writeKey hash128 v = readKey hash128 v ∧
    (v.length = keyWidth → writeKey hash128 v = v) ∧
    (keyWidth < v.length → writeKey hash128 v = hash128 v) ∧
    (v.length < keyWidth →
      writeKey hash128 v = v ++ List.replicate (keyWidth - v.length) 0) := by
  refine ⟨rfl, ?_, ?_, ?_⟩
  · intro h
    simp [writeKey, h]
  · intro h
    have : ¬ v.length = keyWidth := by omega
    simp [writeKey, this, h]
  · intro h
    have h1 : ¬ v.length = keyWidth := by omega
    have h2 : ¬ keyWidth < v.length := by omega
    simp [writeKey, h1, h2]

/-- Witness for C2 at the four lengths 15, 16, 17 and 0 required by the
spec, with a concrete hash128. -/
theorem claim2_witness :
    (writeKey ext0.hash128 (List.replicate 15 3) = readKey ext0.hash128 (List.replicate 15 3) ∧
      writeKey ext0.hash128 (List.replicate 15 3) =
        List.replicate 15 3 ++ List.replicate 1 0) ∧
    (writeKey ext0.hash128 (List.replicate 16 3) = readKey ext0.hash128 (List.replicate 16 3) ∧
      writeKey ext0.hash128 (List.replicate 16 3) = List.replicate 16 3) ∧
    (writeKey ext0.hash128 (List.replicate 17 3) = readKey ext0.hash128 (List.replicate 17 3) ∧
      writeKey ext0.hash128 (List.replicate 17 3) = ext0.hash128 (List.replicate 17 3)) ∧
    (writeKey ext0.hash128 [] = readKey ext0.hash128 [] ∧
      writeKey ext0.hash128 [] = [] ++ List.replicate 16 0) := by
  refine ⟨⟨?_, ?_⟩, ⟨?_, ?_⟩, ⟨?_, ?_⟩, ⟨?_, ?_⟩⟩
  · exact (claim2_key_derivation_symmetry ext0.hash128 (List.replicate 15 3)).1
  · exact (claim2_key_derivation_symmetry ext0.hash128 (List.replicate 15 3)).2.2.2 (by decide)
  · exact (claim2_key_derivation_symmetry ext0.hash128 (List.replicate 16 3)).1
  · exact (claim2_key_derivation_symmetry ext0.hash128 (List.replicate 16 3)).2.1 (by decide)
  · exact (claim2_key_derivation_symmetry ext0.hash128 (List.replicate 17 3)).1
  · exact (claim2_key_derivation_symmetry ext0.hash128 (List.replicate 17 3)).2.2.1 (by decide)
  · exact (claim2_key_derivation_symmetry ext0.hash128 []).1
  · exact (claim2_key_derivation_symmetry ext0.hash128 []).2.2.2 (by decide)

/-- C10: the entries_created counter (fr_state_entries_created returns
the store's next-id field) is incremented exactly once per
state_entry_create call that reaches entry allocation (that is, every
call that does not fail the capacity check), before insertion is
attempted; an insertion conflict does not roll it back.  Hence the
counter is monotone and, step by step, stays at or above any running
count of entries actually inserted, strictly above it on an
insertConflict step. -/
theorem claim10_entries_created (ext : Ext) (rnd : List Nat) (now : Nat)
    (st : StateTree) (server : String) (packet : List Pair) (old : Option Entry) :
    ((state_entry_create ext rnd now st server packet old).result = .capacityExceeded →
      fr_state_entries_created (state_entry_create ext rnd now st server packet old).store =
        fr_state_entries_created st) ∧
    ((state_entry_create ext rnd now st server packet old).result ≠ .capacityExceeded →
      fr_state_entries_created (state_entry_create ext rnd now st server packet old).store =
        fr_state_entries_created st + 1) ∧
    fr_state_entries_created st ≤
      fr_state_entries_created (state_entry_create ext rnd now st server packet old).store ∧
    (∀ n : Nat, n ≤ fr_state_entries_created st →
      (match (state_entry_create ext rnd now st server packet old).result with
        | .ok _ => n + 1
        | _ => n) ≤
        fr_state_entries_created (state_entry_create ext rnd now st server packet old).store) ∧
    ((state_entry_create ext rnd now st server packet old).result = .insertConflict →
      ∀ n : Nat, n ≤ fr_state_entries_created st →
        n < fr_state_entries_created (state_entry_create ext rnd now st server packet old).store) := by
  obtain ⟨hcap, hstep⟩ := create_id_cases ext rnd now st server packet old
  simp only [fr_state_entries_created] at hcap hstep ⊢
  by_cases h : (state_entry_create ext rnd now st server packet old).result = .capacityExceeded
  · rw [h]
    refine ⟨fun _ => hcap h, fun hc => absurd rfl hc, by rw [hcap h], ?_, by simp⟩
    intro n hn
    simpa [hcap h] using hn
  · have hid := hstep h
    rw [hid]
    refine ⟨fun hc => absurd hc h, fun _ => rfl, by omega, ?_, fun _ n hn => by omega⟩
    intro n hn
    cases hres : (state_entry_create ext rnd now st server packet old).result <;> simp <;> omega

/-- Witness for C10 at a concrete create call on an empty store. -/
theorem claim10_witness :
    fr_state_entries_created
        (state_entry_create ext0 rnd0 0 (initTree 4 5 0 1) "A" [] none).store =
      fr_state_entries_created (initTree 4 5 0 1) + 1 :=
  (claim10_entries_created ext0 rnd0 0 (initTree 4 5 0 1) "A" [] none).2.1 (by decide)

/-- C5: Expiry sweep.  At the start of every state_entry_create call the
queue decomposes as p ++ s where p is the processed prefix: every entry
of p is either the predecessor being rotated (skipped by identity) or
has a cleanup deadline strictly in the past; the walk stops at the head
of s, which is neither the predecessor nor expired, and s is left
untouched; the swept (unlinked and freed) entries are exactly the
non-predecessor elements of p, all of them expired and none of them the
predecessor; and the store's timed_out counter after the call has grown
by exactly the number of entries so removed. -/
theorem claim5_expiry_sweep (ext : Ext) (rnd : List Nat) (now : Nat)
    (st : StateTree) (server : String) (packet : List Pair) (old : Option Entry) :
    ∃ p s, st.entries = p ++ s ∧
      (∀ e ∈ p, old.map Entry.id = some e.id ∨ e.cleanup < now) ∧
      (∀ e, s.head? = some e → ¬ old.map Entry.id = some e.id ∧ now ≤ e.cleanup) ∧
      (sweep now (old.map Entry.id) st.entries).1 =
        p.filter (fun e => decide (old.map Entry.id = some e.id)) ++ s ∧
      (sweep now (old.map Entry.id) st.entries).2 =
        p.filter (fun e => ! decide (old.map Entry.id = some e.id)) ∧
      (∀ e ∈ (sweep now (old.map Entry.id) st.entries).2,
        e.cleanup < now ∧ ¬ old.map Entry.id = some e.id) ∧
      fr_state_entries_timeout (state_entry_create ext rnd now st server packet old).store =
        fr_state_entries_timeout st +
          (sweep now (old.map Entry.id) st.entries).2.length := by
  obtain ⟨p, s, h1, h2, h3, h4, h5⟩ := sweep_spec now (old.map Entry.id) st.entries
  refine ⟨p, s, h1, h2, h3, h4, h5, ?_, ?_⟩
  · intro e he
    rw [h5] at he
    have hm := List.mem_filter.mp he
    refine ⟨?_, ?_⟩
    · rcases h2 e hm.1 with h | h
      · simp [h] at hm
      · exact h
    · intro hc
      simp [hc] at hm
  · exact (create_fields ext rnd now st server packet old).2.2.2.2

/-- Witness for C5: a store with one expired entry, swept by a create
call at time 1; the timed_out counter grows by that one removal. -/
theorem claim5_witness :
    fr_state_entries_timeout (state_entry_create ext0 rnd1 1 stE "A" [] none).store =
      fr_state_entries_timeout stE + (sweep 1 none stE.entries).2.length := by
  obtain ⟨p, s, -, -, -, -, -, -, h⟩ := claim5_expiry_sweep ext0 rnd1 1 stE "A" [] none
  exact h

/-- C9: Save-failure preservation.  When fr_request_to_state fails
because state_entry_create returned no entry, the persistable data that
was detached before the attempt is re-attached unchanged, the
session-state list and state context are untouched, and the failure is
surfaced as the nonzero return -1. -/
theorem claim9_save_failure (ext : Ext) (rnd : List Nat) (now : Nat)
    (st : StateTree) (r : Request)
    (hne : ¬(r.state = [] ∧ r.data = []))
    (hf : (state_entry_create ext rnd now st r.server r.reply_vps
      (saveOld ext st r)).result.isOk = false) :
    (fr_request_to_state ext rnd now st r).1 = -1 ∧
    (fr_request_to_state ext rnd now st r).2.2.data = r.data ∧
    (fr_request_to_state ext rnd now st r).2.2.state = r.state ∧
    (fr_request_to_state ext rnd now st r).2.2.state_ctx = r.state_ctx := by
  have hfail : ∀ e, (state_entry_create ext rnd now st r.server r.reply_vps
      (saveOld ext st r)).result ≠ .ok e := by
    intro e h
    rw [h] at hf
    simp [CreateRes.isOk] at hf
  rw [save_fail ext rnd now st r hne hfail]
  simp

/-- Witness for C9: saving into a store whose session ceiling is zero
fails and preserves the request's payload. -/
theorem claim9_witness :
    (fr_request_to_state ext0 rnd0 0 (initTree 0 5 0 1) wReq1).1 = -1 ∧
    (fr_request_to_state ext0 rnd0 0 (initTree 0 5 0 1) wReq1).2.2.data = wReq1.data ∧
    (fr_request_to_state ext0 rnd0 0 (initTree 0 5 0 1) wReq1).2.2.state = wReq1.state ∧
    (fr_request_to_state ext0 rnd0 0 (initTree 0 5 0 1) wReq1).2.2.state_ctx = wReq1.state_ctx :=
  claim9_save_failure ext0 rnd0 0 (initTree 0 5 0 1) wReq1 (by decide) (by decide)

/-- C3: Virtual-server isolation.  For an entry created under virtual
server A from a freshly minted token: the token value attached to the
outbound packet is the pre-xor minted key, the key stored in the index
is the post-xor key, a state_entry_find with the echoed token under a
virtual server B whose hash differs from A's finds nothing, and the
same find under A returns the entry.  (Stated on a store that was empty
before the create, which afterwards contains exactly the new entry.) -/
theorem claim3_virtual_server_isolation (ext : Ext) (rnd : List Nat) (now : Nat)
    (st : StateTree) (serverA serverB : String) (packet : List Pair) (e : Entry)
    (hempty : st.entries = [])
    (hrnd : rnd.length = 16)
    (hpk : packet.find? (fun p => p.da == st.da) = none)
    (hok : (state_entry_create ext rnd now st serverA packet none).result = .ok e)
    (hA : ext.hash32 serverA < 2 ^ 32) (hB : ext.hash32 serverB < 2 ^ 32)
    (hAB : ext.hash32 serverA ≠ ext.hash32 serverB) :
    (state_entry_create ext rnd now st serverA packet none).packet =
      packet ++ [{ da := st.da, value := mintKey ext.version st.server_id 0 rnd }] ∧
    e.state = xorServerHash (mintKey ext.version st.server_id 0 rnd) (ext.hash32 serverA) ∧
    state_entry_find ext (state_entry_create ext rnd now st serverA packet none).store
      serverB (mintKey ext.version st.server_id 0 rnd) = none ∧
    state_entry_find ext (state_entry_create ext rnd now st serverA packet none).store
      serverA (mintKey ext.version st.server_id 0 rnd) = some e := by
  obtain ⟨q, hst, hid, hsub, hdist, hpkt, he⟩ :=
    create_mint_ok ext rnd now st serverA packet none e hpk hok
  have hq : q = [] := by
    cases q with
    | nil => rfl
    | cons a t => exact absurd (hsub a (List.mem_cons_self a t)) (by simp [hempty])
  subst hq
  simp only [mintBase, mintTries] at hpkt he
  have hlen : (mintKey ext.version st.server_id 0 rnd).length = 16 := by
    rw [length_mintKey]; exact hrnd
  have hrd : readKey ext.hash128 (mintKey ext.version st.server_id 0 rnd) =
      mintKey ext.version st.server_id 0 rnd :=
    readKey_eq_self ext.hash128 _ hlen
  refine ⟨hpkt, by rw [he], ?_, ?_⟩
  · simp only [state_entry_find, hst, hrd, List.nil_append]
    have hne2 : ¬ (e.state ==
        xorServerHash (mintKey ext.version st.server_id 0 rnd) (ext.hash32 serverB)) = true := by
      rw [he]
      simpa using xorServerHash_ne _ _ _ hlen hA hB hAB
    simp [List.find?_cons, hne2]
  · simp only [state_entry_find, hst, hrd, List.nil_append]
    have heq : (e.state ==
        xorServerHash (mintKey ext.version st.server_id 0 rnd) (ext.hash32 serverA)) = true := by
      simp [he]
    simp [List.find?_cons, heq]

/-- Witness for C3: concrete create under server A with extAB, looked
up under servers B and A. -/
theorem claim3_witness :
    (state_entry_create extAB rnd0 0 (initTree 4 5 0 1) "A" [] none).packet =
      [] ++ [{ da := 1, value := mintKey 0 0 0 rnd0 }] ∧
    wEntC3.state = xorServerHash (mintKey 0 0 0 rnd0) (extAB.hash32 "A") ∧
    state_entry_find extAB (state_entry_create extAB rnd0 0 (initTree 4 5 0 1) "A" [] none).store
      "B" (mintKey 0 0 0 rnd0) = none ∧
    state_entry_find extAB (state_entry_create extAB rnd0 0 (initTree 4 5 0 1) "A" [] none).store
      "A" (mintKey 0 0 0 rnd0) = some wEntC3 :=
  claim3_virtual_server_isolation extAB rnd0 0 (initTree 4 5 0 1) "A" "B" [] wEntC3
    (by decide) (by decide) (by decide) (by decide) (by decide) (by decide) (by decide)

/-- C7: Rotation chains tries and preserves the random identity.  For a
rotation (predecessor present, no pre-set State attribute) the
successor key attached to the outbound packet is the predecessor's
stored key with only the tries, tx, version-fingerprint and server_id
components recomputed (every other byte, including the whole
server-hash region 4..7 and the random components 2, 9, 11, 13, 14 and
15, is copied verbatim); the entry's internal counter grows by one; the
tries component of the key is one greater (mod 256) than the
predecessor's; and tx is the xor of the new key tries byte with the new
internal tries counter (the code line state_comp.tx = state_comp.tries
XOR entry->tries), truncated to a byte.  The stored key is the minted
key with the server hash xored into bytes 4..7. -/
theorem claim7_rotation (ext : Ext) (rnd : List Nat) (now : Nat)
    (st : StateTree) (server : String) (packet : List Pair) (o e : Entry)
    (hlen : o.state.length = 16)
    (hpk : packet.find? (fun p => p.da == st.da) = none)
    (hok : (state_entry_create ext rnd now st server packet (some o)).result = .ok e)
    (hmint : o.state.getD 0 0 = (o.tries + 1) % 256) :
    e.tries = o.tries + 1 ∧
    (state_entry_create ext rnd now st server packet (some o)).packet =
      packet ++
        [{ da := st.da,
           value := mintKey ext.version st.server_id (o.tries + 1) o.state }] ∧
    e.state = xorServerHash (mintKey ext.version st.server_id (o.tries + 1) o.state)
      (ext.hash32 server) ∧
    (mintKey ext.version st.server_id (o.tries + 1) o.state).getD 0 0 =
      (o.state.getD 0 0 + 1) % 256 ∧
    (mintKey ext.version st.server_id (o.tries + 1) o.state).getD 1 0 =
      ((mintKey ext.version st.server_id (o.tries + 1) o.state).getD 0 0 ^^^
        e.tries) % 256 ∧
    (∀ j ∈ [2, 9, 11, 13, 14, 15],
      (mintKey ext.version st.server_id (o.tries + 1) o.state).getD j 0 =
        o.state.getD j 0) ∧
    (∀ j ∈ [4, 5, 6, 7],
      (mintKey ext.version st.server_id (o.tries + 1) o.state).getD j 0 =
        o.state.getD j 0) ∧
    (mintKey ext.version st.server_id (o.tries + 1) o.state).getD 3 0 =
      st.server_id ∧
    (mintKey ext.version st.server_id (o.tries + 1) o.state).getD 8 0 =
      o.state.getD 2 0 ^^^ (ext.version / 2 ^ 16 % 256) ∧
    (mintKey ext.version st.server_id (o.tries + 1) o.state).getD 10 0 =
      o.state.getD 2 0 ^^^ (ext.version / 2 ^ 8 % 256) ∧
    (mintKey ext.version st.server_id (o.tries + 1) o.state).getD 12 0 =
      o.state.getD 2 0 ^^^ (ext.version % 256) := by
  obtain ⟨q, hst, hid, hsub, hdist, hpkt, he⟩ :=
    create_mint_ok ext rnd now st server packet (some o) e hpk hok
  simp only [mintBase, mintTries] at hpkt he
  obtain ⟨g0, g1, g3, g8, g10, g12, gOther⟩ :=
    mintKey_getD ext.version st.server_id (o.tries + 1) o.state hlen
  have htries : e.tries = o.tries + 1 := by rw [he]
  refine ⟨htries, hpkt, by rw [he], ?_, ?_, ?_, ?_, g3, g8, g10, g12⟩
  · rw [g0, hmint]
    omega
  · rw [g0, g1, htries]
  · intro j hj
    fin_cases hj <;> exact gOther _ (by decide)
  · intro j hj
    fin_cases hj <;> exact gOther _ (by decide)

/-- Witness for C7: rotation of entO inside stO under ext0. -/
theorem claim7_witness :
    wEntC7.tries = entO.tries + 1 ∧
    (state_entry_create ext0 rnd1 0 stO "A" [] (some entO)).packet =
      [] ++ [{ da := 1, value := mintKey 0 0 (entO.tries + 1) entO.state }] ∧
    wEntC7.state = xorServerHash (mintKey 0 0 (entO.tries + 1) entO.state)
      (ext0.hash32 "A") ∧
    (mintKey 0 0 (entO.tries + 1) entO.state).getD 0 0 =
      (entO.state.getD 0 0 + 1) % 256 ∧
    (mintKey 0 0 (entO.tries + 1) entO.state).getD 1 0 =
      ((mintKey 0 0 (entO.tries + 1) entO.state).getD 0 0 ^^^ wEntC7.tries) % 256 ∧
    (∀ j ∈ [2, 9, 11, 13, 14, 15],
      (mintKey 0 0 (entO.tries + 1) entO.state).getD j 0 = entO.state.getD j 0) ∧
    (∀ j ∈ [4, 5, 6, 7],
      (mintKey 0 0 (entO.tries + 1) entO.state).getD j 0 = entO.state.getD j 0) ∧
    (mintKey 0 0 (entO.tries + 1) entO.state).getD 3 0 = 0 ∧
    (mintKey 0 0 (entO.tries + 1) entO.state).getD 8 0 =
      entO.state.getD 2 0 ^^^ (0 / 2 ^ 16 % 256) ∧
    (mintKey 0 0 (entO.tries + 1) entO.state).getD 10 0 =
      entO.state.getD 2 0 ^^^ (0 / 2 ^ 8 % 256) ∧
    (mintKey 0 0 (entO.tries + 1) entO.state).getD 12 0 =
      entO.state.getD 2 0 ^^^ (0 % 256) :=
  claim7_rotation ext0 rnd1 0 stO "A" [] entO wEntC7
    (by decide) (by decide) (by decide) (by decide)

/-- C6: Double-restore rejection.  With an entry whose thawed marker is
clear, the first fr_state_to_request checks its payload out (the
request receives the entry's session-state list, state context,
persistable data and seq_start, and the entry records the restorer).
A second fr_state_to_request for the same token, without an intervening
save or discard, finds the entry already thawed and is refused: the
store and the second request are returned completely unchanged, so
neither the entry nor the first restorer's checked-out payload is
touched. -/
theorem claim6_double_restore (ext : Ext) (st : StateTree) (r1 r2 : Request)
    (vp1 vp2 : Pair) (e : Entry)
    (hvp1 : r1.packet_vps.find? (fun p => p.da == st.da) = some vp1)
    (hfind : state_entry_find ext st r1.server vp1.value = some e)
    (hthaw : e.thawed = none)
    (hvp2 : r2.packet_vps.find? (fun p => p.da == st.da) = some vp2)
    (hval : vp2.value = vp1.value)
    (hsrv : r2.server = r1.server) :
    (fr_state_to_request ext st r1).2.state = e.vps ∧
    (fr_state_to_request ext st r1).2.seq_start = e.seq_start ∧
    (fr_state_to_request ext st r1).2.state_ctx = e.ctx ∧
    (fr_state_to_request ext st r1).2.data = r1.data ++ e.data ∧
    fr_state_to_request ext (fr_state_to_request ext st r1).1 r2 =
      ((fr_state_to_request ext st r1).1, r2) := by
  have hr1 : (fr_state_to_request ext st r1).2 =
      { r1 with seq_start := e.seq_start, state_ctx := e.ctx, state := e.vps,
                data := r1.data ++ e.data } := by
    simp [fr_state_to_request, hvp1, hfind, hthaw]
  have hst1 : (fr_state_to_request ext st r1).1 =
      { st with entries := st.entries.map (fun x =>
          if x.id == e.id then
            { x with ctx := none, vps := [], data := [], thawed := some r1.number }
          else x) } := by
    simp [fr_state_to_request, hvp1, hfind, hthaw]
  refine ⟨by rw [hr1], by rw [hr1], by rw [hr1], by rw [hr1], ?_⟩
  rw [hst1]
  have hfind2 : state_entry_find ext
      { st with entries := st.entries.map (fun x =>
          if x.id == e.id then
            { x with ctx := none, vps := [], data := [], thawed := some r1.number }
          else x) } r2.server vp2.value =
      some { e with ctx := none, vps := [], data := [], thawed := some r1.number } := by
    simp only [state_entry_find, hval, hsrv] at hfind ⊢
    rw [find?_map_state_preserving _ _ _ (fun x => by
      by_cases h : (x.id == e.id) = true <;> simp [h])]
    rw [hfind]
    simp
  simp only [fr_state_to_request, hvp2]
  rw [hfind2]
  simp

/-- Witness for C6: entF restored by wReq2, then refused for wReq3. -/
theorem claim6_witness :
    (fr_state_to_request ext0 stF wReq2).2.state = entF.vps ∧
    (fr_state_to_request ext0 stF wReq2).2.seq_start = entF.seq_start ∧
    (fr_state_to_request ext0 stF wReq2).2.state_ctx = entF.ctx ∧
    (fr_state_to_request ext0 stF wReq2).2.data = wReq2.data ++ entF.data ∧
    fr_state_to_request ext0 (fr_state_to_request ext0 stF wReq2).1 wReq3 =
      ((fr_state_to_request ext0 stF wReq2).1, wReq3) :=
  claim6_double_restore ext0 stF wReq2 wReq3
    { da := 1, value := mintKey 0 0 0 rnd0 } { da := 1, value := mintKey 0 0 0 rnd0 }
    entF (by decide) (by decide) (by decide) (by decide) (by decide) (by decide)

/-- C8 counterexample: the claim says that for every request carrying a
token, after fr_state_discard the request's own payload container is
reset to an empty state.  The code returns early without touching the
request when no entry matches the token: here a request carrying a
token with a non-empty session-state list is discarded against an
empty store, and its payload container is left non-empty (the whole
request and store are unchanged). -/
theorem claim8_discard_counterexample :
    (cReqB.packet_vps.find? (fun p => p.da == (initTree 4 5 0 1).da)).isSome = true ∧
    (fr_state_discard ext0 99 (initTree 4 5 0 1) cReqB).2.state ≠ [] ∧
    fr_state_discard ext0 99 (initTree 4 5 0 1) cReqB = (initTree 4 5 0 1, cReqB) := by
  decide

/-- C8 amended: for every request carrying a token, when an entry
matches the token the entry is unlinked from index and queue and freed
with its owned payload, a subsequent find for that token returns
nothing, and the request's payload container is reset (empty
session-state list, fresh state context); when no entry matches, the
store and the request are returned unchanged. -/
theorem claim8_discard_amended (ext : Ext) (freshCtx : Nat) (st : StateTree)
    (r : Request) (vp : Pair)
    (hn : (st.entries.map Entry.state).Nodup)
    (hidn : (st.entries.map Entry.id).Nodup)
    (hvp : r.packet_vps.find? (fun p => p.da == st.da) = some vp) :
    (∀ e, state_entry_find ext st r.server vp.value = some e →
      (fr_state_discard ext freshCtx st r).1.entries =
        st.entries.eraseP (fun x => x.id == e.id) ∧
      state_entry_find ext (fr_state_discard ext freshCtx st r).1 r.server
        vp.value = none ∧
      (fr_state_discard ext freshCtx st r).2.state = [] ∧
      (fr_state_discard ext freshCtx st r).2.state_ctx = some freshCtx) ∧
    (state_entry_find ext st r.server vp.value = none →
      fr_state_discard ext freshCtx st r = (st, r)) := by
  constructor
  · intro e hfind
    have hout : fr_state_discard ext freshCtx st r =
        ({ st with entries := st.entries.eraseP (fun x => x.id == e.id) },
         { r with state := [], state_ctx := some freshCtx }) := by
      simp [fr_state_discard, hvp, hfind]
    refine ⟨by rw [hout], ?_, by rw [hout], by rw [hout]⟩
    rw [hout]
    simp only [state_entry_find] at hfind ⊢
    exact find_state_eraseP st.entries _ e hn hidn hfind
  · intro hfind
    simp [fr_state_discard, hvp, hfind]

/-- Witness for the amended C8: discarding entF via its token empties
the store of it, makes a second find fail, and resets the request. -/
theorem claim8_witness :
    (fr_state_discard ext0 99 stF cReqB).1.entries =
      stF.entries.eraseP (fun x => x.id == entF.id) ∧
    state_entry_find ext0 (fr_state_discard ext0 99 stF cReqB).1 cReqB.server
      (mintKey 0 0 0 rnd0) = none ∧
    (fr_state_discard ext0 99 stF cReqB).2.state = [] ∧
    (fr_state_discard ext0 99 stF cReqB).2.state_ctx = some 99 :=
  (claim8_discard_amended ext0 99 stF cReqB { da := 1, value := mintKey 0 0 0 rnd0 }
    (by decide) (by decide) (by decide)).1 entF (by decide)

theorem saveOld_mem (ext : Ext) (st : StateTree) (r : Request) (o : Entry)
    (h : saveOld ext st r = some o) : o ∈ st.entries := by
  unfold saveOld at h
  cases hf : r.packet_vps.find? (fun p => p.da == st.da) with
  | none => rw [hf] at h; cases h
  | some vp =>
    rw [hf] at h
    simp only [state_entry_find] at h
    exact List.mem_of_find?_eq_some h

/-- C1: Round trip.  A payload (session-state pair list, persistable
data, seq_start) saved by fr_request_to_state with a token minted by
the codec (no pre-set State attribute on the reply), followed by
fr_state_to_request on a request that echoes that token in the same
virtual server, restores exactly the saved session-state list,
persistable data, state context and seq_start. -/
theorem claim1_round_trip (ext : Ext) (rnd : List Nat) (now : Nat)
    (st : StateTree) (r r2 : Request) (tok vp2 : Pair)
    (hwf : WF st)
    (hrnd : rnd.length = 16)
    (hnoState : r.reply_vps.find? (fun p => p.da == st.da) = none)
    (hne : ¬(r.state = [] ∧ r.data = []))
    (hsave : (fr_request_to_state ext rnd now st r).1 = 0)
    (htok : (fr_request_to_state ext rnd now st r).2.2.reply_vps.find?
      (fun p => p.da == st.da) = some tok)
    (hvp2 : r2.packet_vps.find? (fun p => p.da == st.da) = some vp2)
    (hval : vp2.value = tok.value)
    (hsrv : r2.server = r.server)
    (hdat2 : r2.data = []) :
    (fr_state_to_request ext (fr_request_to_state ext rnd now st r).2.1 r2).2.state =
      r.state ∧
    (fr_state_to_request ext (fr_request_to_state ext rnd now st r).2.1 r2).2.data =
      r.data ∧
    (fr_state_to_request ext (fr_request_to_state ext rnd now st r).2.1 r2).2.seq_start =
      r.seq_start ∧
    (fr_state_to_request ext (fr_request_to_state ext rnd now st r).2.1 r2).2.state_ctx =
      r.state_ctx := by
  cases hres : (state_entry_create ext rnd now st r.server r.reply_vps
      (saveOld ext st r)).result with
  | capacityExceeded =>
    have hferr := save_fail ext rnd now st r hne
      (fun e' h => by rw [hres] at h; exact CreateRes.noConfusion h)
    rw [hferr] at hsave
    norm_num at hsave
  | insertConflict =>
    have hferr := save_fail ext rnd now st r hne
      (fun e' h => by rw [hres] at h; exact CreateRes.noConfusion h)
    rw [hferr] at hsave
    norm_num at hsave
  | ok e =>
    have hsq := save_ok ext rnd now st r e hne hres
    obtain ⟨q, hst, hid, hsub, hdist, hpkt, he⟩ :=
      create_mint_ok ext rnd now st r.server r.reply_vps (saveOld ext st r) e
        hnoState hres
    have hbase : (mintBase rnd (saveOld ext st r)).length = 16 := by
      cases hso : saveOld ext st r with
      | none => simpa [mintBase] using hrnd
      | some o =>
        simp only [mintBase]
        exact hwf.1 o (saveOld_mem ext st r o hso)
    have hklen : (mintKey ext.version st.server_id (mintTries (saveOld ext st r))
        (mintBase rnd (saveOld ext st r))).length = 16 := by
      rw [length_mintKey]; exact hbase
    have hrv : (fr_request_to_state ext rnd now st r).2.2.reply_vps =
        (state_entry_create ext rnd now st r.server r.reply_vps
          (saveOld ext st r)).packet := by
      rw [hsq]
    rw [hrv, hpkt] at htok
    have hfindtok : List.find? (fun p => p.da == st.da)
        (r.reply_vps ++
          [({ da := st.da,
              value := mintKey ext.version st.server_id (mintTries (saveOld ext st r))
                (mintBase rnd (saveOld ext st r)) } : Pair)]) =
        some ({ da := st.da,
                value := mintKey ext.version st.server_id (mintTries (saveOld ext st r))
                  (mintBase rnd (saveOld ext st r)) } : Pair) := by
      simp [List.find?_append, hnoState]
    rw [hfindtok] at htok
    have hv2 : vp2.value = mintKey ext.version st.server_id
        (mintTries (saveOld ext st r)) (mintBase rnd (saveOld ext st r)) := by
      rw [hval, ← Option.some_inj.mp htok]
    have hes : e.state = xorServerHash
        (mintKey ext.version st.server_id (mintTries (saveOld ext st r))
          (mintBase rnd (saveOld ext st r))) (ext.hash32 r.server) := by
      rw [he]
    have hentries : (fr_request_to_state ext rnd now st r).2.1.entries =
        q ++ [{ e with
                  seq_start := r.seq_start, ctx := r.state_ctx,
                  vps := r.state, data := r.data }] := by
      rw [hsq]
      show ((state_entry_create ext rnd now st r.server r.reply_vps
        (saveOld ext st r)).store.entries.map _) = _
      rw [hst, List.map_append]
      congr 1
      · have hfix : ∀ x ∈ q, (if x.id == e.id then
            { e with
                seq_start := r.seq_start, ctx := r.state_ctx,
                vps := r.state, data := r.data } else x) = x := by
          intro x hx
          have hlt : x.id < st.id := hwf.2.1 x (hsub x hx)
          have hne2 : x.id ≠ e.id := by
            rw [he]
            exact Nat.ne_of_lt hlt
          simp [hne2]
        rw [List.map_congr_left hfix]
        exact q.map_id
      · simp
    have hda1 : (fr_request_to_state ext rnd now st r).2.1.da = st.da := by
      rw [hsq]
      exact (create_fields ext rnd now st r.server r.reply_vps
        (saveOld ext st r)).2.2.2.1
    have hfind2 : state_entry_find ext (fr_request_to_state ext rnd now st r).2.1
        r2.server vp2.value =
        some { e with
                 seq_start := r.seq_start, ctx := r.state_ctx,
                 vps := r.state, data := r.data } := by
      simp only [state_entry_find]
      rw [hentries, hv2, hsrv, readKey_eq_self ext.hash128 _ hklen]
      rw [List.find?_append]
      have hqnone : q.find? (fun x => x.state == xorServerHash
          (mintKey ext.version st.server_id (mintTries (saveOld ext st r))
            (mintBase rnd (saveOld ext st r))) (ext.hash32 r.server)) = none := by
        apply List.find?_eq_none.mpr
        intro x hx
        have := hdist x hx
        rw [hes] at this
        simpa using this
      rw [hqnone]
      simp [hes]
    have hrestore : fr_state_to_request ext
        (fr_request_to_state ext rnd now st r).2.1 r2 =
        ((fr_state_to_request ext (fr_request_to_state ext rnd now st r).2.1 r2).1,
         { r2 with
             seq_start := r.seq_start, state_ctx := r.state_ctx,
             state := r.state, data := r2.data ++ r.data }) := by
      simp only [fr_state_to_request, hda1, hvp2]
      rw [hfind2]
      have hth : ({ e with
          seq_start := r.seq_start, ctx := r.state_ctx,
          vps := r.state, data := r.data } : Entry).thawed = none := by
        rw [he]
      simp [hth, he]
    rw [hrestore]
    simp [hdat2]

/-- Witness for C1: wReq1's payload saved into an empty store at time 0,
then restored by wReq2 carrying the echoed token. -/
theorem claim1_witness :
    (fr_state_to_request ext0
      (fr_request_to_state ext0 rnd0 0 (initTree 10 5 0 1) wReq1).2.1 wReq2).2.state =
      wReq1.state ∧
    (fr_state_to_request ext0
      (fr_request_to_state ext0 rnd0 0 (initTree 10 5 0 1) wReq1).2.1 wReq2).2.data =
      wReq1.data ∧
    (fr_state_to_request ext0
      (fr_request_to_state ext0 rnd0 0 (initTree 10 5 0 1) wReq1).2.1 wReq2).2.seq_start =
      wReq1.seq_start ∧
    (fr_state_to_request ext0
      (fr_request_to_state ext0 rnd0 0 (initTree 10 5 0 1) wReq1).2.1 wReq2).2.state_ctx =
      wReq1.state_ctx :=
  claim1_round_trip ext0 rnd0 0 (initTree 10 5 0 1) wReq1 wReq2
    { da := 1, value := mintKey 0 0 0 rnd0 } { da := 1, value := mintKey 0 0 0 rnd0 }
    (by decide) (by decide) (by decide) (by decide) (by decide) (by decide)
    (by decide) (by decide) (by decide) (by decide)

theorem create_fresh_ok_simple (ext : Ext) (rnd : List Nat) (now : Nat)
    (st : StateTree) (server : String)
    (hclean : ∀ e ∈ st.entries, now ≤ e.cleanup)
    (hcap : st.entries.length < st.max_sessions)
    (hnoc : ∀ e ∈ st.entries, e.state ≠
      xorServerHash (mintKey ext.version st.server_id 0 rnd) (ext.hash32 server)) :
    state_entry_create ext rnd now st server [] none =
      { result := .ok
          { id := st.id,
            state := xorServerHash (mintKey ext.version st.server_id 0 rnd)
              (ext.hash32 server),
            seq_start := 0, cleanup := now + st.timeout, tries := 0,
            ctx := none, vps := [], data := [], thawed := none },
        store :=
          { st with
              id := st.id + 1,
              entries := st.entries ++
                [{ id := st.id,
                   state := xorServerHash (mintKey ext.version st.server_id 0 rnd)
                     (ext.hash32 server),
                   seq_start := 0, cleanup := now + st.timeout, tries := 0,
                   ctx := none, vps := [], data := [], thawed := none }] },
        packet := [{ da := st.da, value := mintKey ext.version st.server_id 0 rnd }] } := by
  have hsw : sweep now none st.entries = (st.entries, []) :=
    sweep_no_expire now none st.entries hclean
  have hc2 : ¬ st.max_sessions ≤ st.entries.length := by omega
  have hconf : st.entries.any (fun x => x.state ==
      xorServerHash (mintKey ext.version st.server_id 0 rnd) (ext.hash32 server)) = false := by
    apply List.any_eq_false.mpr
    intro x hx
    simpa using hnoc x hx
  simp only [state_entry_create, insertEntry, Option.map_none', hsw]
  repeat' split
  all_goals first
    | omega
    | (simp_all; omega)
    | simp_all

theorem createRun_append (ext : Ext) (server : String) (now : Nat)
    (a b : List (List Nat)) :
    ∀ st : StateTree,
    (createRun ext server now (a ++ b) st).1 =
      (createRun ext server now b (createRun ext server now a st).1).1 ∧
    (createRun ext server now (a ++ b) st).2 =
      (createRun ext server now a st).2 +
        (createRun ext server now b (createRun ext server now a st).1).2 := by
  induction a with
  | nil => intro st; simp [createRun]
  | cons rnd rest ih =>
    intro st
    simp only [List.cons_append, createRun, List.append_eq]
    obtain ⟨h1, h2⟩ := ih (state_entry_create ext rnd now st server [] none).store
    rw [h1, h2]
    refine ⟨rfl, ?_⟩
    generalize (match (state_entry_create ext rnd now st server [] none).result with
      | CreateRes.capacityExceeded => 1
      | _ => 0) = m
    omega

theorem createRun_all_ok (ext : Ext) (server : String) (now : Nat) :
    ∀ (rnds : List (List Nat)) (st : StateTree),
    (∀ e ∈ st.entries, now ≤ e.cleanup) →
    (∀ rnd ∈ rnds, ∀ e ∈ st.entries,
      e.state ≠ xorServerHash (mintKey ext.version st.server_id 0 rnd) (ext.hash32 server)) →
    rnds.Pairwise (fun a b =>
      xorServerHash (mintKey ext.version st.server_id 0 a) (ext.hash32 server) ≠
      xorServerHash (mintKey ext.version st.server_id 0 b) (ext.hash32 server)) →
    st.entries.length + rnds.length ≤ st.max_sessions →
    (createRun ext server now rnds st).2 = 0 ∧
    (createRun ext server now rnds st).1.entries.length =
      st.entries.length + rnds.length ∧
    (createRun ext server now rnds st).1.max_sessions = st.max_sessions ∧
    (∀ e ∈ (createRun ext server now rnds st).1.entries, now ≤ e.cleanup) := by
  intro rnds
  induction rnds with
  | nil =>
    intro st h1 h2 h3 h4
    exact ⟨rfl, by simp [createRun], rfl, h1⟩
  | cons rnd rest ih =>
    intro st h1 h2 h3 h4
    have hcap : st.entries.length < st.max_sessions := by
      simp only [List.length_cons] at h4
      omega
    have hnoc : ∀ e ∈ st.entries, e.state ≠
        xorServerHash (mintKey ext.version st.server_id 0 rnd) (ext.hash32 server) :=
      fun e he => h2 rnd (List.mem_cons_self rnd rest) e he
    have hcr := create_fresh_ok_simple ext rnd now st server h1 hcap hnoc
    have hpw := List.pairwise_cons.mp h3
    have ihr := ih
      { st with
          id := st.id + 1,
          entries := st.entries ++
            [{ id := st.id,
               state := xorServerHash (mintKey ext.version st.server_id 0 rnd)
                 (ext.hash32 server),
               seq_start := 0, cleanup := now + st.timeout, tries := 0,
               ctx := none, vps := [], data := [], thawed := none }] }
      (by
        intro e he
        rcases List.mem_append.mp he with he | he
        · exact h1 e he
        · simp only [List.mem_singleton] at he
          rw [he]
          exact Nat.le_add_right now st.timeout)
      (by
        intro rnd2 h2m e he
        rcases List.mem_append.mp he with he | he
        · exact h2 rnd2 (List.mem_cons_of_mem rnd h2m) e he
        · simp only [List.mem_singleton] at he
          rw [he]
          exact hpw.1 rnd2 h2m)
      hpw.2
      (by
        simp only [List.length_append, List.length_cons, List.length_nil] at h4 ⊢
        omega)
    simp only [createRun, hcr]
    refine ⟨?_, ?_, ?_, ?_⟩
    · rw [ihr.1]
    · rw [ihr.2.1]
      simp only [List.length_append, List.length_cons, List.length_nil]
      omega
    · rw [ihr.2.2.1]
    · exact ihr.2.2.2

/-- C4 counterexample.  The claim asserts that under sequential
operation fr_state_entries_tracked never exceeds max_sessions.  With
max_sessions = 1: one successful save creates an entry that keeps
persistable data; a second request that echoes the token without
restoring it then saves again, so state_entry_create rotates a
predecessor that still carries data — the predecessor is kept, the
capacity check is skipped (a predecessor exists), and the new entry is
inserted: both saves return 0 yet two entries are tracked. -/
theorem claim4_capacity_counterexample :
    (initTree 1 5 0 1).max_sessions = 1 ∧
    (fr_request_to_state ext0 rnd0 0 (initTree 1 5 0 1) cReqA).1 = 0 ∧
    (fr_request_to_state ext0 rnd0 0
      (fr_request_to_state ext0 rnd0 0 (initTree 1 5 0 1) cReqA).2.1 cReqB).1 = 0 ∧
    fr_state_entries_tracked
      (fr_request_to_state ext0 rnd0 0
        (fr_request_to_state ext0 rnd0 0 (initTree 1 5 0 1) cReqA).2.1 cReqB).2.1 = 2 := by
  decide

/-- C4 amended: a state_entry_create call with no predecessor fails
with CapacityExceeded exactly when, after the expiry sweep, the index
already holds at least max_sessions live entries, and the failure is
returned with the swept entries already removed and counted into
timed_out; a create with no predecessor — or one whose predecessor is a
live entry carrying no persistable data — never pushes
fr_state_entries_tracked above max_sessions; and creating
max_sessions + 1 independent non-rotating entries (distinct minted
keys, no intervening expiry) produces exactly one CapacityExceeded,
leaving exactly max_sessions entries tracked.  (The unconditional
"never exceeds max_sessions under sequential operation" of the original
claim fails for rotations whose predecessor still carries persistable
data; see the counterexample.) -/
theorem claim4_capacity_amended (ext : Ext) (rnd : List Nat) (now : Nat)
    (st : StateTree) (server : String) (packet : List Pair) :
    ((state_entry_create ext rnd now st server packet none).result = .capacityExceeded ↔
      st.max_sessions ≤ (sweep now none st.entries).1.length) ∧
    ((state_entry_create ext rnd now st server packet none).result = .capacityExceeded →
      (state_entry_create ext rnd now st server packet none).store.entries =
        (sweep now none st.entries).1 ∧
      (state_entry_create ext rnd now st server packet none).store.timed_out =
        st.timed_out + (sweep now none st.entries).2.length) ∧
    (fr_state_entries_tracked st ≤ st.max_sessions →
      fr_state_entries_tracked
        (state_entry_create ext rnd now st server packet none).store ≤
        st.max_sessions) ∧
    (∀ o ∈ st.entries, o.data = [] →
      fr_state_entries_tracked st ≤ st.max_sessions →
      fr_state_entries_tracked
        (state_entry_create ext rnd now st server packet (some o)).store ≤
        st.max_sessions) ∧
    (∀ rnds : List (List Nat), st.entries = [] →
      rnds.length = st.max_sessions + 1 →
      rnds.Pairwise (fun a b =>
        xorServerHash (mintKey ext.version st.server_id 0 a) (ext.hash32 server) ≠
        xorServerHash (mintKey ext.version st.server_id 0 b) (ext.hash32 server)) →
      (createRun ext server now rnds st).2 = 1 ∧
      fr_state_entries_tracked (createRun ext server now rnds st).1 =
        st.max_sessions) := by
  refine ⟨(create_capacity_iff ext rnd now st server packet).1, ?_, ?_, ?_, ?_⟩
  · intro hfail
    exact ⟨(create_capacity_iff ext rnd now st server packet).2
        ((create_capacity_iff ext rnd now st server packet).1.mp hfail),
      (create_fields ext rnd now st server packet none).2.2.2.2⟩
  · intro hle
    exact create_tracked_le ext rnd now st server packet hle
  · intro o ho hdata hle
    exact create_tracked_le_rot ext rnd now st server packet o ho hdata hle
  · intro rnds hempty hlen hpw
    have hne : rnds ≠ [] := by
      intro h
      rw [h] at hlen
      simp at hlen
    have hsplit : rnds.dropLast ++ [rnds.getLast hne] = rnds :=
      List.dropLast_append_getLast hne
    have hlena : rnds.dropLast.length = st.max_sessions := by
      have := congrArg List.length hsplit
      simp only [List.length_append, List.length_cons, List.length_nil] at this
      omega
    obtain ⟨hc0, hlen1, hmax1, hclean1⟩ := createRun_all_ok ext server now
      rnds.dropLast st
      (by rw [hempty]; intro e he; cases he)
      (by rw [hempty]; intro rnd2 hm e he; cases he)
      (hpw.sublist (List.dropLast_sublist rnds))
      (by rw [hempty]; simp [hlena])
    have hstlen : (createRun ext server now rnds.dropLast st).1.entries.length =
        st.max_sessions := by
      rw [hlen1, hempty]
      simp [hlena]
    have hsw1 : sweep now none (createRun ext server now rnds.dropLast st).1.entries =
        ((createRun ext server now rnds.dropLast st).1.entries, []) :=
      sweep_no_expire now none _ hclean1
    have hfail : (state_entry_create ext (rnds.getLast hne) now
        (createRun ext server now rnds.dropLast st).1 server [] none).result =
        .capacityExceeded := by
      apply (create_capacity_iff ext (rnds.getLast hne) now
        (createRun ext server now rnds.dropLast st).1 server []).1.mpr
      rw [hsw1, hmax1, hstlen]
    have hstore : (state_entry_create ext (rnds.getLast hne) now
        (createRun ext server now rnds.dropLast st).1 server [] none).store.entries =
        (createRun ext server now rnds.dropLast st).1.entries := by
      have := (create_capacity_iff ext (rnds.getLast hne) now
        (createRun ext server now rnds.dropLast st).1 server []).2
        (by rw [hsw1, hmax1, hstlen])
      rw [this, hsw1]
    obtain ⟨happ1, happ2⟩ := createRun_append ext server now
      rnds.dropLast [rnds.getLast hne] st
    constructor
    · rw [← hsplit, happ2, hc0]
      simp only [createRun, hfail]
    · rw [fr_state_entries_tracked, ← hsplit, happ1]
      simp only [createRun]
      rw [hstore, hstlen]

/-- Witness for the amended C4: one more create than max_sessions = 1
allows, from an empty store, with two distinct random blocks: exactly
one CapacityExceeded, and one entry tracked at the end. -/
theorem claim4_witness :
    (createRun ext0 "A" 0 [rnd0, rnd1] (initTree 1 5 0 1)).2 = 1 ∧
    fr_state_entries_tracked (createRun ext0 "A" 0 [rnd0, rnd1] (initTree 1 5 0 1)).1 = 1 :=
  (claim4_capacity_amended ext0 rnd0 0 (initTree 1 5 0 1) "A" []).2.2.2.2
    [rnd0, rnd1] (by decide) (by decide) (by decide)

end StateStore
